import Mathlib

/-!
Verification of `noamick/design-patterns` against its specification.

The development shallowly embeds the three source files the claims touch:

* `src/Structural_patterns/composite_example.py` — the `Expression`
  hierarchy (`Expression` abstract base, `Number` leaf, `Operation`
  abstract composite, `PlusOperation`).  Python floats are modelled as
  rationals `ℚ`; the abstract `Expression.get_value`, whose body is
  `raise NotImplementedError()`, is modelled by an `abstractExpression`
  node whose evaluation returns an error, so evaluation lives in
  `Except EvalError ℚ`.
* The same file is embedded a second time at the object level: nodes
  live in a heap (`List HNode`) addressed by object ids, and evaluation
  threads the heap through every call (as stateful code would), so that
  purity and frame properties are genuine theorems rather than artifacts
  of a pure embedding.
* `src/Structural_patterns/adapter_example.py` — rocks and holes over
  `ℝ`; Python's `x ** 0.5` on a non-negative float is `Real.sqrt`.
* `src/creation_patterns/singleton_example.py` — the class variable
  `instance` and the allocator are modelled by an explicit state record,
  object identity by numeric ids.
-/

namespace DesignPatterns

/-- The single runtime error kind of the composite example:
`Expression.get_value` raises `NotImplementedError()`. -/
inductive EvalError where
  | notImplemented
deriving DecidableEq, Repr

/-- The `Expression` class hierarchy of `composite_example.py`.
`number` is the `Number` leaf (field `value`), `plusOperation` the
`PlusOperation` composite (fields `ex1`, `ex2` set by
`Operation.__init__`).  `abstractExpression` models a receiver whose
`get_value` is the abstract `Expression.get_value` body, i.e. a type
that supplied no concrete implementation. -/
inductive PyExpr where
  | number (value : ℚ)
  | plusOperation (ex1 ex2 : PyExpr)
  | abstractExpression
deriving DecidableEq, Repr

/-- `get_value`:
* `Number.get_value` — `return self.value`;
* `PlusOperation.get_value` — `return self.ex1.get_value() + self.ex2.get_value()`;
* `Expression.get_value` — `raise NotImplementedError()`. -/
def PyExpr.get_value : PyExpr → Except EvalError ℚ
  | .number v => .ok v
  | .plusOperation a b =>
      match a.get_value with
      | .error e => .error e
      | .ok x =>
          match b.get_value with
          | .error e => .error e
          | .ok y => .ok (x + y)
  | .abstractExpression => .error .notImplemented

/-- A node is concrete when it is built solely from the concrete
variants `Number` and `PlusOperation`. -/
def PyExpr.concrete : PyExpr → Bool
  | .number _ => true
  | .plusOperation a b => a.concrete && b.concrete
  | .abstractExpression => false

/-- Number of `Number` leaves in a tree. -/
def PyExpr.numLeaves : PyExpr → Nat
  | .number _ => 1
  | .plusOperation a b => a.numLeaves + b.numLeaves
  | .abstractExpression => 0

/-- Number of composite (`Operation`) nodes in a tree. -/
def PyExpr.numComposites : PyExpr → Nat
  | .number _ => 0
  | .plusOperation a b => a.numComposites + b.numComposites + 1
  | .abstractExpression => 0

/-- `get_value`, instrumented with the number of nodes on which
`get_value` is invoked during the call (each node counts itself once;
on an error the evaluation unwinds, so later siblings are not visited,
exactly as a raised exception propagates in the source). -/
def PyExpr.get_value_visits : PyExpr → Except EvalError ℚ × Nat
  | .number v => (.ok v, 1)
  | .abstractExpression => (.error .notImplemented, 1)
  | .plusOperation a b =>
      match a.get_value_visits with
      | (.error e, n1) => (.error e, n1 + 1)
      | (.ok x, n1) =>
        match b.get_value_visits with
        | (.error e, n2) => (.error e, n1 + n2 + 1)
        | (.ok y, n2) => (.ok (x + y), n1 + n2 + 1)

/-- The instrumented evaluator computes the same result as `get_value`. -/
theorem PyExpr.get_value_visits_fst (e : PyExpr) :
    e.get_value_visits.1 = e.get_value := by
  induction e with
  | number v => rfl
  | abstractExpression => rfl
  | plusOperation a b iha ihb =>
      rcases ha : a.get_value_visits with ⟨ra, na⟩
      rw [ha] at iha
      rcases hb : b.get_value_visits with ⟨rb, nb⟩
      rw [hb] at ihb
      have iha' : ra = a.get_value := iha
      have ihb' : rb = b.get_value := ihb
      simp only [get_value_visits, get_value, ha, hb, ← iha', ← ihb']
      cases ra <;> cases rb <;> rfl

/-- A concrete tree evaluates successfully. -/
theorem PyExpr.concrete_get_value_ok (e : PyExpr) (h : e.concrete = true) :
    ∃ v, e.get_value = .ok v := by
  induction e with
  | number v => exact ⟨v, rfl⟩
  | abstractExpression => simp [concrete] at h
  | plusOperation a b iha ihb =>
      simp only [concrete, Bool.and_eq_true] at h
      obtain ⟨va, hva⟩ := iha h.1
      obtain ⟨vb, hvb⟩ := ihb h.2
      exact ⟨va + vb, by simp [get_value, hva, hvb]⟩

/-- Claim C1: for a composite `PlusOperation(A, B)` whose children
evaluate to values `va` and `vb`, `get_value` returns exactly
`va + vb` — the composite recursively evaluates both children and
combines the results with addition. -/
theorem plusOperation_get_value_adds (a b : PyExpr) (va vb : ℚ)
    (ha : a.get_value = .ok va) (hb : b.get_value = .ok vb) :
    (PyExpr.plusOperation a b).get_value = .ok (va + vb) := by
  simp [PyExpr.get_value, ha, hb]

/-- Witness for C1 on the concrete tree `Plus(Number 1, Number 2)`. -/
theorem plusOperation_get_value_adds_witness :
    (PyExpr.number 1).get_value = .ok 1 ∧
    (PyExpr.number 2).get_value = .ok 2 ∧
    (PyExpr.plusOperation (.number 1) (.number 2)).get_value = .ok (1 + 2) :=
  ⟨rfl, rfl, plusOperation_get_value_adds (.number 1) (.number 2) 1 2 rfl rfl⟩

/-- Claim C2: a leaf `Number(v)` evaluates to exactly its stored value
`v`, with no transformation. -/
theorem number_get_value_id (v : ℚ) :
    (PyExpr.number v).get_value = .ok v := rfl

/-- Claim C3: every finite tree built from the concrete variants
evaluates to a value — `get_value` terminates (the evaluator is a total
structurally recursive function) and succeeds, never raising. -/
theorem composite_eval_terminates (e : PyExpr) (h : e.concrete = true) :
    ∃ v, e.get_value = Except.ok v :=
  e.concrete_get_value_ok h

/-- Witness for C3 on the source example tree `(1 + 2) + 3`. -/
theorem composite_eval_terminates_witness :
    (PyExpr.plusOperation (.plusOperation (.number 1) (.number 2))
      (.number 3)).concrete = true ∧
    ∃ v, (PyExpr.plusOperation (.plusOperation (.number 1) (.number 2))
      (.number 3)).get_value = Except.ok v :=
  ⟨rfl, composite_eval_terminates _ rfl⟩

/-- Claim C7: the only error kind is `NotImplemented`, produced only by
the abstract `get_value`; a tree built solely from the concrete variants
`Number` and `PlusOperation` never raises. -/
theorem composite_error_taxonomy (e : PyExpr) (err : EvalError) :
    (e.get_value = .error err → err = .notImplemented) ∧
    (e.concrete = true → e.get_value ≠ .error err) := by
  constructor
  · intro _
    cases err
    rfl
  · intro hc
    obtain ⟨v, hv⟩ := e.concrete_get_value_ok hc
    simp [hv]

/-- Witness for C7: the abstract receiver errs with `NotImplemented`,
and a concrete leaf does not err. -/
theorem composite_error_taxonomy_witness :
    (PyExpr.abstractExpression.get_value = .error .notImplemented ∧
      EvalError.notImplemented = .notImplemented) ∧
    ((PyExpr.number 1).concrete = true ∧
      (PyExpr.number 1).get_value ≠ .error .notImplemented) :=
  ⟨⟨rfl, (composite_error_taxonomy .abstractExpression .notImplemented).1 rfl⟩,
   ⟨rfl, (composite_error_taxonomy (.number 1) .notImplemented).2 rfl⟩⟩

/-- On a concrete tree a single `get_value` call performs exactly one
visit per node: the visit count is the node count. -/
theorem PyExpr.concrete_visits (e : PyExpr) (h : e.concrete = true) :
    e.get_value_visits.2 = e.numLeaves + e.numComposites := by
  induction e with
  | number v => rfl
  | abstractExpression => simp [concrete] at h
  | plusOperation a b iha ihb =>
      simp only [concrete, Bool.and_eq_true] at h
      obtain ⟨va, hva⟩ := a.concrete_get_value_ok h.1
      obtain ⟨vb, hvb⟩ := b.concrete_get_value_ok h.2
      have hra : a.get_value_visits.1 = Except.ok va := by
        rw [a.get_value_visits_fst]; exact hva
      have hrb : b.get_value_visits.1 = Except.ok vb := by
        rw [b.get_value_visits_fst]; exact hvb
      have hna := iha h.1
      have hnb := ihb h.2
      rcases ha2 : a.get_value_visits with ⟨ra, na⟩
      rw [ha2] at hra hna
      rcases hb2 : b.get_value_visits with ⟨rb, nb⟩
      rw [hb2] at hrb hnb
      have hra' : ra = Except.ok va := hra
      have hrb' : rb = Except.ok vb := hrb
      have hna' : na = a.numLeaves + a.numComposites := hna
      have hnb' : nb = b.numLeaves + b.numComposites := hnb
      subst hra' hrb'
      simp only [get_value_visits, numLeaves, numComposites, ha2, hb2]
      omega

/-- A concrete binary tree has one more leaf than composite nodes. -/
theorem PyExpr.concrete_numLeaves (e : PyExpr) (h : e.concrete = true) :
    e.numLeaves = e.numComposites + 1 := by
  induction e with
  | number v => rfl
  | abstractExpression => simp [concrete] at h
  | plusOperation a b iha ihb =>
      simp only [concrete, Bool.and_eq_true] at h
      have := iha h.1
      have := ihb h.2
      simp only [numLeaves, numComposites]
      omega

/-- Claim C8: a concrete tree with `n` leaves has `n - 1` composites,
and a single `get_value` call visits `2 * n - 1` nodes — each node
exactly once, linearly in the tree size. -/
theorem composite_eval_linear_visits (e : PyExpr) (n : Nat)
    (hc : e.concrete = true) (hn : e.numLeaves = n) :
    e.numComposites = n - 1 ∧ e.get_value_visits.2 = 2 * n - 1 := by
  have h1 := e.concrete_numLeaves hc
  have h2 := e.concrete_visits hc
  omega

/-- Witness for C8 on the source example tree `(1 + 2) + 3`
(3 leaves, 2 composites, 5 visits). -/
theorem composite_eval_linear_visits_witness :
    (PyExpr.plusOperation (.plusOperation (.number 1) (.number 2))
      (.number 3)).concrete = true ∧
    (PyExpr.plusOperation (.plusOperation (.number 1) (.number 2))
      (.number 3)).numLeaves = 3 ∧
    (PyExpr.plusOperation (.plusOperation (.number 1) (.number 2))
      (.number 3)).numComposites = 3 - 1 ∧
    (PyExpr.plusOperation (.plusOperation (.number 1) (.number 2))
      (.number 3)).get_value_visits.2 = 2 * 3 - 1 := by
  refine ⟨rfl, rfl, ?_⟩
  exact composite_eval_linear_visits _ 3 rfl rfl

/-! ### Object-level (heap) embedding of `composite_example.py`

Python objects live in a heap and methods may in principle mutate any
field they can reach; to prove the spec's purity and immutability
sentences the evaluator is embedded once more at this level, with the
heap threaded through every call. -/

/-- The fields of one `Expression` object: a `Number` object stores its
`value`; a `PlusOperation` object stores the object ids of its children
`ex1` and `ex2` (set by `Operation.__init__`). -/
inductive HNode where
  | number (value : ℚ)
  | plusOperation (ex1 ex2 : Nat)
deriving DecidableEq, Repr

/-- The object heap: the object with id `i` is entry `i` of the list. -/
abbrev Heap := List HNode

/-- Object-level `get_value` on the object with id `i`.  Each field
access reads the heap, and the heap is returned alongside the value so
that any mutation the method performed would be visible; `fuel` bounds
the recursion depth and `none` covers fuel exhaustion or a dangling
reference. -/
def hGetValue : Nat → Heap → Nat → Option (ℚ × Heap)
  | 0, _, _ => none
  | fuel + 1, h, i =>
      match h.get? i with
      | none => none
      | some (.number v) => some (v, h)
      | some (.plusOperation i1 i2) =>
          match hGetValue fuel h i1 with
          | none => none
          | some (v1, h1) =>
              match hGetValue fuel h1 i2 with
              | none => none
              | some (v2, h2) => some (v1 + v2, h2)

/-- Frame property: whenever object-level evaluation succeeds, the heap
it returns is the heap it was given — no field of any object changed. -/
theorem hGetValue_frame :
    ∀ (fuel : Nat) (h : Heap) (i : Nat) (v : ℚ) (h' : Heap),
      hGetValue fuel h i = some (v, h') → h' = h := by
  intro fuel
  induction fuel with
  | zero =>
      intro h i v h' hev
      simp [hGetValue] at hev
  | succ fuel ih =>
      intro h i v h' hev
      simp only [hGetValue] at hev
      split at hev
      · simp at hev
      · simp only [Option.some.injEq, Prod.mk.injEq] at hev
        exact hev.2.symm
      · rename_i i1 i2 heq
        split at hev
        · simp at hev
        · rename_i v1 h1 heq1
          split at hev
          · simp at hev
          · rename_i v2 h2 heq2
            simp only [Option.some.injEq, Prod.mk.injEq] at hev
            have e1 := ih h i1 v1 h1 heq1
            have e2 := ih h1 i2 v2 h2 heq2
            rw [← hev.2, e2, e1]

/-- Claim C5: evaluation mutates nothing — the heap after a successful
`get_value` call equals the heap before it, so every `value`, `ex1` and
`ex2` field is unchanged; nodes are immutable after construction. -/
theorem composite_eval_no_mutation (fuel : Nat) (h : Heap) (i : Nat)
    (v : ℚ) (h' : Heap) (hev : hGetValue fuel h i = some (v, h')) :
    h' = h :=
  hGetValue_frame fuel h i v h' hev

/-- The heap of the source example tree `(1 + 2) + 3`: three `Number`
objects at ids 0, 1, 2 and two `PlusOperation` objects at ids 3, 4. -/
def exampleHeap : Heap :=
  [HNode.number 1, HNode.number 2, HNode.number 3,
   HNode.plusOperation 0 1, HNode.plusOperation 3 2]

/-- Witness for C5 on the example heap. -/
theorem composite_eval_no_mutation_witness :
    hGetValue 3 exampleHeap 4 = some (1 + 2 + 3, exampleHeap) ∧
    exampleHeap = exampleHeap :=
  ⟨rfl, composite_eval_no_mutation 3 exampleHeap 4 (1 + 2 + 3) exampleHeap rfl⟩

/-- Claim C4: evaluation is deterministic and repeatable — calling
`get_value` a second time, on the heap the first call returned, yields
the very same value and heap. -/
theorem composite_eval_idempotent (fuel : Nat) (h : Heap) (i : Nat)
    (v : ℚ) (h' : Heap) (hev : hGetValue fuel h i = some (v, h')) :
    hGetValue fuel h' i = some (v, h') := by
  have hfr := hGetValue_frame fuel h i v h' hev
  subst hfr
  exact hev

/-- Witness for C4 on the example heap: the second call repeats the
first call's result. -/
theorem composite_eval_idempotent_witness :
    hGetValue 3 exampleHeap 4 = some (1 + 2 + 3, exampleHeap) ∧
    hGetValue 3 exampleHeap 4 = some (1 + 2 + 3, exampleHeap) :=
  ⟨rfl, composite_eval_idempotent 3 exampleHeap 4 (1 + 2 + 3) exampleHeap rfl⟩

/-! ### `adapter_example.py`

Rock and hole dimensions are Python floats, modelled as reals; the
constructor expression `(height ** 2 + width ** 2) ** 0.5` on a
non-negative base is `Real.sqrt`. -/

/-- `RoundRock.__init__` stores `radius`. -/
structure RoundRock where
  radius : ℝ

/-- `RoundHole.__init__` stores `radius`. -/
structure RoundHole where
  radius : ℝ

/-- `RoundHole.does_rock_fit`: `return rock.radius < self.radius`. -/
def RoundHole.does_rock_fit (self : RoundHole) (rock : RoundRock) : Prop :=
  rock.radius < self.radius

/-- `SquareRock.__init__` stores `width` and `height`. -/
structure SquareRock where
  width : ℝ
  height : ℝ

/-- `SquareRockAdapter.__init__`: computes
`radius = (square_rock.height ** 2 + square_rock.width ** 2) ** 0.5`
and passes it to `RoundRock.__init__`. -/
noncomputable def SquareRockAdapter (square_rock : SquareRock) : RoundRock :=
  ⟨Real.sqrt (square_rock.height ^ 2 + square_rock.width ^ 2)⟩

/-- Claim C6: the adapter's radius is the full diagonal length
`sqrt (w ^ 2 + h ^ 2)`, and (for a rock of positive width) not half the
diagonal `sqrt (w ^ 2 + h ^ 2) / 2`. -/
theorem squareRockAdapter_radius_full_diagonal (sq : SquareRock)
    (h : 0 < sq.width) :
    (SquareRockAdapter sq).radius =
      Real.sqrt (sq.width ^ 2 + sq.height ^ 2) ∧
    (SquareRockAdapter sq).radius ≠
      Real.sqrt (sq.width ^ 2 + sq.height ^ 2) / 2 := by
  have hcomm : (SquareRockAdapter sq).radius =
      Real.sqrt (sq.width ^ 2 + sq.height ^ 2) := by
    simp only [SquareRockAdapter]
    rw [add_comm]
  refine ⟨hcomm, ?_⟩
  rw [hcomm]
  have hpos : 0 < sq.width ^ 2 + sq.height ^ 2 := by
    have h1 : 0 < sq.width ^ 2 := by positivity
    have h2 : 0 ≤ sq.height ^ 2 := sq_nonneg _
    linarith
  have hs : 0 < Real.sqrt (sq.width ^ 2 + sq.height ^ 2) :=
    Real.sqrt_pos.mpr hpos
  intro heq
  linarith

/-- Witness for C6 on the 3-by-4 square rock of the source example. -/
theorem squareRockAdapter_radius_full_diagonal_witness :
    (0 : ℝ) < (SquareRock.mk 3 4).width ∧
    ((SquareRockAdapter (SquareRock.mk 3 4)).radius =
        Real.sqrt ((SquareRock.mk 3 4).width ^ 2 +
          (SquareRock.mk 3 4).height ^ 2) ∧
      (SquareRockAdapter (SquareRock.mk 3 4)).radius ≠
        Real.sqrt ((SquareRock.mk 3 4).width ^ 2 +
          (SquareRock.mk 3 4).height ^ 2) / 2) :=
  ⟨by norm_num,
   squareRockAdapter_radius_full_diagonal (SquareRock.mk 3 4) (by norm_num)⟩

/-- Claim C10: a rock fits a round hole exactly when its radius is
strictly smaller than the hole's; a rock whose radius equals the hole's
radius does not fit. -/
theorem does_rock_fit_iff_lt (hole : RoundHole) (rock : RoundRock) :
    (hole.does_rock_fit rock ↔ rock.radius < hole.radius) ∧
    ¬ (RoundHole.mk rock.radius).does_rock_fit rock :=
  ⟨Iff.rfl, lt_irrefl rock.radius⟩

/-! ### `singleton_example.py`

The class variable `instance` (initially `None`) and Python's object
allocator are modelled by an explicit state record; object identity is a
numeric id, and constructing an object consumes the next fresh id. -/

/-- The mutable state `get_instance` reads and writes: `inst` models the
class variable `instance` (`none` is Python's `None`), `nextId` the
allocator's next fresh object id. -/
structure SingletonState where
  inst : Option Nat
  nextId : Nat
deriving DecidableEq, Repr

/-- `Singleton.get_instance`: if `cls.instance is None`, construct a new
object (`cls()` — the fresh id), store it in `cls.instance`, and return
`cls.instance`. -/
def Singleton.get_instance (s : SingletonState) : Nat × SingletonState :=
  match s.inst with
  | some i => (i, s)
  | none => (s.nextId, ⟨some s.nextId, s.nextId + 1⟩)

/-- Claim C9: `get_instance` is idempotent — a first call on the initial
state constructs the instance and stores it, and a second call returns
that very same stored instance, constructing nothing (the state,
allocator included, is unchanged). -/
theorem singleton_get_instance_idempotent (s : SingletonState) :
    Singleton.get_instance (Singleton.get_instance s).2 =
      ((Singleton.get_instance s).1, (Singleton.get_instance s).2) ∧
    ((Singleton.get_instance s).2).inst =
      some (Singleton.get_instance s).1 ∧
    ∀ n : Nat, Singleton.get_instance ⟨none, n⟩ = (n, ⟨some n, n + 1⟩) := by
  rcases s with ⟨mi, next⟩
  cases mi with
  | none => exact ⟨rfl, rfl, fun _ => rfl⟩
  | some i => exact ⟨rfl, rfl, fun _ => rfl⟩

end DesignPatterns
